import Mathlib

-- `Rat.add` is shipped `@[irreducible]`; concrete evaluations below reduce
-- rational sums, so restore default reducibility for it.
set_option allowUnsafeReducibility true
attribute [semireducible] Rat.add

/-!
# Vendor checkout settlement subsystem: shallow embedding

Embedding of the vendor checkout settlement and reporting subsystem of the
farmers-backend repository (`src/CTE.py`, `src/api/checkout.py`,
`src/api/reporting.py`, `src/order_by.py`, `src/api_error_handling.py`).

Relational tables are lists of rows; SQL queries become list pipelines
(joins = nested `flatMap` + `filter`, `GROUP BY` = grouping on first
occurrence of each key, aggregates = folds).  Money amounts use `Rat`
(exact decimal arithmetic), dates are modelled as integers ordered as
calendar dates are, ids are naturals, token counts are signed integers.

The database schema itself (DDL) is not part of the repository: the tables
are `autoload`ed from a live PostgreSQL instance.  Where a claim depends on
the schema (column names, foreign keys, the uniqueness constraint on
settlements) the schema is modelled from the spec; such definitions say so
in their doc comments.
-/

namespace Farmers

/-- Row of the `markets` table (columns used by this subsystem:
`id`, `manager_id`; see the joins in `src/api/reporting.py`). -/
structure Market where
  id : Nat
  manager_id : Nat
deriving DecidableEq, Repr

/-- Row of the `vendors` table (columns used: `id`, `business_name`, `type`;
see `market_vendors_cte` in `src/CTE.py` and the joins in
`src/api/reporting.py`). -/
structure Vendor where
  id : Nat
  business_name : String
  type : String
deriving DecidableEq, Repr

/-- Row of the `market_vendors` table (`id`, `vendor_id`, `market_id`). -/
structure MarketVendor where
  id : Nat
  vendor_id : Nat
  market_id : Nat
deriving DecidableEq, Repr

/-- Row of the `market_tokens` table (`id`, `market_id`, `token_type`,
`per_dollar_value`; see `market_tokens_cte` in `src/CTE.py`). -/
structure MarketToken where
  id : Nat
  market_id : Nat
  token_type : String
  per_dollar_value : Rat
deriving DecidableEq, Repr

/-- Row of the `vendor_checkouts` table.  Columns are the ones written by
`submit_checkout` in `src/api/checkout.py`: `market_vendor`, `market_date`,
`gross`, `fees_paid`, plus the generated primary key `id`. -/
structure VendorCheckout where
  id : Nat
  market_vendor : Nat
  market_date : Int
  gross : Rat
  fees_paid : Rat
deriving DecidableEq, Repr

/-- Row of the `token_deltas` table.  Columns are the ones written by
`submit_checkout` in `src/api/checkout.py` (`market_token`, `transactor`,
`count`) plus the generated primary key `id`; the spec's data model
(§3 TokenDelta) lists the same fields. -/
structure TokenDelta where
  id : Nat
  market_token : Nat
  transactor : String
  count : Int
deriving DecidableEq, Repr

/-- Row of the `vendor_checkout_tokens` link table
(`vendor_checkout`, `token_delta`). -/
structure VendorCheckoutToken where
  vendor_checkout : Nat
  token_delta : Nat
deriving DecidableEq, Repr

/-- Row of the `market_fees` table as read by `get_market_fees` in
`src/api/checkout.py` (`market_id`, `vendor_type`, `fee_type`, `rate`,
`rate_2`, with `rate_2` nullable). -/
structure MarketFee where
  market_id : Nat
  vendor_type : String
  fee_type : String
  rate : Rat
  rate_2 : Option Rat
deriving DecidableEq, Repr

/-- The relational store: one list of rows per table, plus the next values
of the generated primary keys for the two tables `submit_checkout` inserts
into. -/
structure Store where
  markets : List Market
  vendors : List Vendor
  market_vendors : List MarketVendor
  market_tokens : List MarketToken
  market_fees : List MarketFee
  vendor_checkouts : List VendorCheckout
  token_deltas : List TokenDelta
  vendor_checkout_tokens : List VendorCheckoutToken
  next_checkout_id : Nat
  next_token_delta_id : Nat
deriving DecidableEq, Repr

/-! ## Fee decomposition (`market_fees_cte`, `src/CTE.py` lines 26-49) -/

/-- The `flat` column of `market_fees_cte` (`src/CTE.py` lines 30-37):
`CASE WHEN fee_type = 'FLAT_FEE' THEN rate WHEN 'PERCENT_GROSS' THEN
COALESCE(rate_2, 0) WHEN 'FLAT_PERCENT_COMBO' THEN rate WHEN
'MAX_OF_EITHER' THEN rate WHEN 'GOV_FEE' THEN rate ELSE 0 END`. -/
def fee_flat (fee_type : String) (rate : Rat) (rate_2 : Option Rat) : Rat :=
  if fee_type = "FLAT_FEE" then rate
  else if fee_type = "PERCENT_GROSS" then rate_2.getD 0
  else if fee_type = "FLAT_PERCENT_COMBO" then rate
  else if fee_type = "MAX_OF_EITHER" then rate
  else if fee_type = "GOV_FEE" then rate
  else 0

/-- The `percent` column of `market_fees_cte` (`src/CTE.py` lines 38-45):
`CASE WHEN fee_type = 'FLAT_FEE' THEN COALESCE(rate_2, 0) WHEN
'PERCENT_GROSS' THEN rate WHEN 'FLAT_PERCENT_COMBO' THEN COALESCE(rate_2, 0)
WHEN 'MAX_OF_EITHER' THEN COALESCE(rate_2, 0) WHEN 'GOV_FEE' THEN 0
ELSE 0 END`. -/
def fee_percent (fee_type : String) (rate : Rat) (rate_2 : Option Rat) : Rat :=
  if fee_type = "FLAT_FEE" then rate_2.getD 0
  else if fee_type = "PERCENT_GROSS" then rate
  else if fee_type = "FLAT_PERCENT_COMBO" then rate_2.getD 0
  else if fee_type = "MAX_OF_EITHER" then rate_2.getD 0
  else if fee_type = "GOV_FEE" then 0
  else 0

/-- A fee rule's (flat component, percent component) pair, the two computed
columns of `market_fees_cte`. -/
def fee_components (fee_type : String) (rate : Rat) (rate_2 : Option Rat) :
    Rat × Rat :=
  (fee_flat fee_type rate rate_2, fee_percent fee_type rate rate_2)

/-- The whole `market_fees_cte` (`src/CTE.py` lines 26-49): for each
`market_fees` row of the given market, its `vendor_type`, `fee_type` and the
two computed columns `flat` and `percent`. -/
def market_fees_cte (s : Store) (market_id : Nat) :
    List (String × String × Rat × Rat) :=
  (s.market_fees.filter fun f => f.market_id == market_id).map fun f =>
    (f.vendor_type, f.fee_type, fee_flat f.fee_type f.rate f.rate_2,
      fee_percent f.fee_type f.rate f.rate_2)

/-! ## Checkout submission (`submit_checkout`, `src/api/checkout.py` lines 188-256)

`submit_checkout` runs one transaction (`with db.engine.begin()`):
it inserts the `vendor_checkouts` header, then — when `tokens` is present —
the `token_deltas` rows and the `vendor_checkout_tokens` link rows, with no
validation of its own.  Any `DBAPIError` rolls the whole transaction back
and is answered with HTTP status 500 ("Database error"); success is
answered with HTTP status 200. -/

/-- The request body `PaidToken` (`src/api/checkout.py` lines 38-40). -/
structure PaidToken where
  market_token_id : Nat
  count : Int
deriving DecidableEq, Repr

/-- The request body `CheckoutSubmit` (`src/api/checkout.py` lines 42-47).
No field carries a range constraint: in the source, `reported_gross` is a
plain `Decimal` with no validator, so any value — negative included — is
accepted by request validation. -/
structure CheckoutSubmit where
  market_vendor_id : Nat
  market_date : Int
  reported_gross : Rat
  fees_paid : Rat
  tokens : Option (List PaidToken)
deriving DecidableEq, Repr

/-- Modelled from the spec: the `transactor` value written for checkout
token deltas.  The source writes `TokenTransactorType.Vendor.value`, but
`TokenTransactorType` is absent from `src/database_enum_types.py`; the
spec (§3) attributes checkout deltas to the vendor actor type. -/
def vendor_transactor : String := "VENDOR"

/-- Modelled from the spec: the database constraints relevant to a checkout
submission.  The DDL is not in the repository (tables are autoloaded from a
live database); the spec gives a foreign key from `vendor_checkouts` to the
vendor directory (§6), a foreign key from `token_deltas.market_token` to the
token catalog (§3), and a uniqueness constraint on one settlement per
(vendor, market date) pair (§5).  A violation raises a `DBAPIError`. -/
inductive DbViolation where
  /-- The submitted `market_vendor` references no `market_vendors` row. -/
  | checkout_fk
  /-- a second settlement for the same (vendor, date) pair. -/
  | checkout_unique
  /-- some `market_token` references no `market_tokens` row. -/
  | token_fk
deriving DecidableEq, Repr

/-- The first `DBAPIError` a submission's inserts raise, if any, in the
order `submit_checkout` executes them: the `vendor_checkouts` insert
(foreign key, then uniqueness), then the `token_deltas` inserts (foreign
key).  Constraints are the spec-modelled ones of `DbViolation`.  Note that a
token belonging to a *different* market still satisfies the plain foreign
key: no constraint, and no code in `submit_checkout`, compares the token's
market with the vendor's market. -/
def first_violation (s : Store) (c : CheckoutSubmit) : Option DbViolation :=
  if ¬ s.market_vendors.any (fun mv => mv.id == c.market_vendor_id) then
    some .checkout_fk
  else if s.vendor_checkouts.any (fun vc =>
      vc.market_vendor == c.market_vendor_id && vc.market_date == c.market_date) then
    some .checkout_unique
  else match c.tokens with
    | none => none
    | some ts =>
      if ts.any (fun t => ¬ s.market_tokens.any (fun mt => mt.id == t.market_token_id))
      then some .token_fk
      else none

/-- The store after a successful submission commits: the new
`vendor_checkouts` row, and — when `tokens` is present — one `token_deltas`
row per entry (with `transactor = vendor_transactor` and the entry's
`count`) and one `vendor_checkout_tokens` link row per delta, exactly as the
three inserts of `submit_checkout` write them. -/
def commit_submit (s : Store) (c : CheckoutSubmit) : Store :=
  let vc_id := s.next_checkout_id
  let s1 := { s with
    vendor_checkouts := s.vendor_checkouts ++
      [⟨vc_id, c.market_vendor_id, c.market_date, c.reported_gross, c.fees_paid⟩],
    next_checkout_id := vc_id + 1 }
  match c.tokens with
  | none => s1
  | some ts =>
    let new_deltas := ts.enum.map fun p =>
      TokenDelta.mk (s.next_token_delta_id + p.1) p.2.market_token_id
        vendor_transactor p.2.count
    { s1 with
      token_deltas := s1.token_deltas ++ new_deltas,
      vendor_checkout_tokens := s1.vendor_checkout_tokens ++
        new_deltas.map fun td => ⟨vc_id, td.id⟩,
      next_token_delta_id := s.next_token_delta_id + ts.length }

/-- The endpoint `submit_checkout` (`src/api/checkout.py` lines 188-256): returns the
HTTP status and the store afterwards.  The `except DBAPIError` handler maps
*every* database error to status 500 with the transaction rolled back
(store unchanged); a violation-free submission commits with status 200. -/
def submit_checkout (s : Store) (c : CheckoutSubmit) : Nat × Store :=
  match first_violation s c with
  | some _ => (500, s)
  | none => (200, commit_submit s c)

/-! ## Error mapping (`handle_error`, `src/api_error_handling.py` lines 13-43) -/

/-- The psycopg2 error classes distinguished by `src/api_error_handling.py`. -/
inductive PgError where
  | foreign_key_violation
  | unique_violation
  | not_null_violation
  | check_violation
  | other
deriving DecidableEq, Repr

/-- The `DatabaseError` enum of `src/api_error_handling.py` lines 7-11. -/
inductive DatabaseError where
  | FOREIGN_KEY_VIOLATION
  | UNIQUE_VIOLATION
  | NOT_NULL_VIOLATION
  | CHECK_VIOLATION
deriving DecidableEq, Repr

/-- The helper `handle_error` (`src/api_error_handling.py` lines 13-43): walks the
requested error kinds in order and raises the first matching HTTP status —
404 for foreign key violations, 409 for uniqueness violations, 400 for
not-null and check violations; `none` when nothing matches (no exception
raised).  `submit_checkout` never calls it. -/
def handle_error (err : PgError) : List DatabaseError → Option Nat
  | [] => none
  | t :: ts =>
    match t, err with
    | .FOREIGN_KEY_VIOLATION, .foreign_key_violation => some 404
    | .UNIQUE_VIOLATION, .unique_violation => some 409
    | .NOT_NULL_VIOLATION, .not_null_violation => some 400
    | .CHECK_VIOLATION, .check_violation => some 400
    | _, _ => handle_error err ts

/-! ## Column names of `token_deltas` (for the write/read round trip)

Modelled from the spec: the `token_deltas` table's columns.  The DDL is
absent from the repository; the spec's data model (§3) gives TokenDelta the
fields (id, market_token id, transactor type, count), and the write path
(`submit_checkout`, `src/api/checkout.py` lines 222-232) inserts exactly the
columns `market_token`, `transactor`, `count`. -/
def token_deltas_columns : List String :=
  ["id", "market_token", "transactor", "count"]

/-- The column name under which `submit_checkout` writes a token's signed
quantity (`src/api/checkout.py` line 228). -/
def submit_count_column : String := "count"

/-- The column name the report query reads a token's signed quantity from:
`COALESCE(SUM(td.delta), 0)` in `get_report`
(`src/api/reporting.py` line 59). -/
def report_count_column : String := "delta"

/-! ## Grouping helper

`GROUP BY` over a list of rows: one group per distinct key, keys in order
of first appearance, each group aggregated over the rows carrying it. -/

/-- The distinct elements of a list, each kept at its first occurrence. -/
def firstKeys {α : Type} [DecidableEq α] (l : List α) : List α :=
  l.foldl (fun acc x => if x ∈ acc then acc else acc ++ [x]) []

/-! ## Report query (`get_report`, `src/api/reporting.py` lines 30-154) -/

/-- One row of the `market_token_deltas` CTE
(`src/api/reporting.py` lines 53-66). -/
structure MTDRow where
  vendor_checkout_id : Nat
  token_id : Nat
  token_type : String
  per_dollar_value : Rat
  token_delta : Int
deriving DecidableEq, Repr

/-- The aggregate `COALESCE(SUM(td.delta), 0)` of one
(`vendor_checkout`, `market_token`) group of `market_token_deltas`: over the
checkout's link rows (`LEFT JOIN vendor_checkout_tokens vct ON
vct.vendor_checkout = vc.id`), the summed `count` of the token-delta rows
matching `vct.token_delta = td.id AND td.market_token = mt.id`
(`src/api/reporting.py` lines 59, 63-64; the query spells the summed column
`td.delta`, the value column of the `token_deltas` rows). -/
def token_delta_sum (s : Store) (vc_id mt_id : Nat) : Int :=
  (((s.vendor_checkout_tokens.filter fun l => l.vendor_checkout == vc_id)).map
    fun l =>
      ((s.token_deltas.filter fun td =>
          td.id == l.token_delta && td.market_token == mt_id).map
        TokenDelta.count).sum).sum

/-- The `market_token_deltas` CTE (`src/api/reporting.py` lines 53-66):
`vendor_checkouts` joined to `market_vendors`, inner-joined to *every*
`market_tokens` row of the vendor's market, grouped by
(`vc.id`, `mt.id`, `mt.token_type`, `mt.per_dollar_value`), each group
carrying the summed linked delta (0 when none). -/
def market_token_deltas (s : Store) : List MTDRow :=
  s.vendor_checkouts.flatMap fun vc =>
    (s.market_vendors.filter fun mv => vc.market_vendor == mv.id).flatMap
      fun mv =>
        (s.market_tokens.filter fun mt => mt.market_id == mv.market_id).map
          fun mt =>
            ⟨vc.id, mt.id, mt.token_type, mt.per_dollar_value,
              token_delta_sum s vc.id mt.id⟩

/-- One row of the `checkouts_cte` CTE (`src/api/reporting.py` lines 68-85). -/
structure CheckoutRow where
  checkout_id : Nat
  business_name : String
  vendor_type : String
  gross : Rat
  fees_paid : Rat
  market_date : Int
  token_type : String
  token_delta : Int
  per_dollar_value : Rat
deriving DecidableEq, Repr

/-- The `checkouts_cte` CTE (`src/api/reporting.py` lines 68-85):
`vendor_checkouts` joined to `market_vendors`, `vendors`, `markets` and
(inner) to `market_token_deltas`, restricted to markets of the manager and
to the optional market/date filters.  The Python wrapper adds the market
filter only when `market_id != 0` and the date filter only when a date was
supplied (`src/api/reporting.py` lines 40-46). -/
def checkouts_cte (s : Store) (manager_id market_id : Nat)
    (market_date : Option Int) : List CheckoutRow :=
  s.vendor_checkouts.flatMap fun vc =>
    (s.market_vendors.filter fun mv => vc.market_vendor == mv.id).flatMap
      fun mv =>
        (s.vendors.filter fun v => mv.vendor_id == v.id).flatMap fun v =>
          ((s.markets.filter fun m =>
              m.id == mv.market_id && m.manager_id == manager_id
                && (market_id == 0 || mv.market_id == market_id)
                && (match market_date with
                    | none => true
                    | some d => vc.market_date == d))).flatMap fun _m =>
            ((market_token_deltas s).filter fun r =>
                r.vendor_checkout_id == vc.id).map fun r =>
              ⟨vc.id, v.business_name, v.type, vc.gross, vc.fees_paid,
                vc.market_date, r.token_type, r.token_delta,
                r.per_dollar_value⟩

/-- One row of the `aggregated_totals` CTE
(`src/api/reporting.py` lines 87-95). -/
structure AggRow where
  token_type : String
  per_dollar_value : Rat
  total_token_delta : Int
  total_fees_paid : Rat
deriving DecidableEq, Repr

/-- The `aggregated_totals` CTE (`src/api/reporting.py` lines 87-95):
`checkouts_cte` grouped by (`token_type`, `per_dollar_value`), each group
carrying `SUM(token_delta)` and `SUM(fees_paid)` over its rows. -/
def aggregated_totals (rows : List CheckoutRow) : List AggRow :=
  (firstKeys (rows.map fun r => (r.token_type, r.per_dollar_value))).map
    fun k =>
      ⟨k.1, k.2,
        ((rows.filter fun r => (r.token_type, r.per_dollar_value) == k).map
          CheckoutRow.token_delta).sum,
        ((rows.filter fun r => (r.token_type, r.per_dollar_value) == k).map
          CheckoutRow.fees_paid).sum⟩

/-- One token entry of a report row's `tokens` array, and of the totals
block's `tokens` array (`JSON_BUILD_OBJECT('type', …, 'count', …,
'per_dollar_value', …)`, `src/api/reporting.py` lines 106-110, 124-128). -/
structure TokenEntry where
  type : String
  count : Int
  per_dollar_value : Rat
deriving DecidableEq, Repr

/-- One element of the report's `checkouts` array: the object built by
`final_data` (`src/api/reporting.py` lines 97-116). -/
structure ReportRow where
  business_name : String
  vendor_type : String
  gross : Rat
  fees_paid : Rat
  market_date : Int
  tokens : List TokenEntry
deriving DecidableEq, Repr

/-- The `GROUP BY` key of `final_data`
(`src/api/reporting.py` line 114). -/
structure FinalKey where
  business_name : String
  vendor_type : String
  gross : Rat
  fees_paid : Rat
  market_date : Int
deriving DecidableEq, Repr

/-- The `final_data` grouping key of a `checkouts_cte` row. -/
def final_key (r : CheckoutRow) : FinalKey :=
  ⟨r.business_name, r.vendor_type, r.gross, r.fees_paid, r.market_date⟩

/-- The `final_data` grouping key of a finished report row. -/
def report_row_key (row : ReportRow) : FinalKey :=
  ⟨row.business_name, row.vendor_type, row.gross, row.fees_paid,
    row.market_date⟩

/-- The `final_data` CTE before its `ORDER BY`
(`src/api/reporting.py` lines 97-114): `checkouts_cte` grouped by
(`business_name`, `vendor_type`, `gross`, `fees_paid`, `market_date`), each
group's token entries collected by `json_agg` in row order. -/
def final_rows (rows : List CheckoutRow) : List ReportRow :=
  (firstKeys (rows.map final_key)).map fun k =>
    ⟨k.business_name, k.vendor_type, k.gross, k.fees_paid, k.market_date,
      (rows.filter fun r => final_key r == k).map fun r =>
        ⟨r.token_type, r.token_delta, r.per_dollar_value⟩⟩

/-! ## Sorting (`src/order_by.py`, and `ORDER BY` of `final_data`) -/

/-- The `SortOption` enum (`src/order_by.py` lines 5-12); each value is the
SQL column name interpolated into `ORDER BY`.  `user_sortable_endpoint`
rejects any value outside the four the report endpoint declares
(`src/order_by.py` lines 26-29, `src/api/reporting.py` line 31), so these
four constructors are exactly the admissible sort keys. -/
inductive SortOption where
  | MarketDate
  | VendorName
  | Gross
  | FeesPaid
deriving DecidableEq, Repr

/-- The `SortDirection` enum (`src/order_by.py` lines 14-19). -/
inductive SortDirection where
  | Ascending
  | Descending
deriving DecidableEq, Repr

/-- A sort-key value: the `ORDER BY` column of a report row is a date
(`MARKET_DATE`), a string (`BUSINESS_NAME`) or a numeric (`GROSS`,
`FEES_PAID`). -/
inductive SKey where
  | int (i : Int)
  | str (s : String)
  | rat (q : Rat)
deriving DecidableEq, Repr

/-- Comparison of sort-key values.  Keys produced by one sort option always
share a constructor; across constructors an arbitrary fixed order keeps the
comparison total. -/
def SKey.le : SKey → SKey → Bool
  | .int a, .int b => decide (a ≤ b)
  | .str a, .str b => decide (a ≤ b)
  | .rat a, .rat b => decide (a ≤ b)
  | .int _, _ => true
  | .str _, .int _ => false
  | .str _, .rat _ => true
  | .rat _, _ => false

/-- The sort-key value of a report row under a sort option: the column
named by the option in `ORDER BY {sort_by}`
(`src/api/reporting.py` line 115). -/
def sort_key (o : SortOption) (row : ReportRow) : SKey :=
  match o with
  | .MarketDate => .int row.market_date
  | .VendorName => .str row.business_name
  | .Gross => .rat row.gross
  | .FeesPaid => .rat row.fees_paid

/-- The row comparison of `ORDER BY {sort_by} {sort_direction}`: ascending
compares the keys directly, descending flips them. -/
def row_le (o : SortOption) (d : SortDirection) (a b : ReportRow) : Bool :=
  match d with
  | .Ascending => SKey.le (sort_key o a) (sort_key o b)
  | .Descending => SKey.le (sort_key o b) (sort_key o a)

/-- The `ORDER BY` of `final_data` as a stable sort of the grouped rows:
rows with equal keys keep their relative order (the query names no
secondary key). -/
def order_by (o : SortOption) (d : SortDirection) (rows : List ReportRow) :
    List ReportRow :=
  rows.insertionSort fun a b => row_le o d a b = true

/-! ## Totals (`totals_data`, `src/api/reporting.py` lines 118-138) -/

/-- SQL `MAX` over a column: `none` on an empty set. -/
def sql_max (l : List Rat) : Option Rat :=
  match l with
  | [] => none
  | x :: xs => some (xs.foldl max x)

/-- The totals object (`JSON_BUILD_OBJECT('fees_paid', …, 'tokens', …)`,
`src/api/reporting.py` lines 120-132). -/
structure Totals where
  fees_paid : Rat
  tokens : List TokenEntry
deriving DecidableEq, Repr

/-- The `totals_data` CTE (`src/api/reporting.py` lines 118-134):
`fees_paid` is `COALESCE(MAX(total_fees_paid), 0)` — the *greatest* of the
per-(token type, per-dollar value) group sums, not their sum — and `tokens`
holds one entry per `aggregated_totals` row. -/
def totals_data (aggs : List AggRow) : Totals :=
  ⟨(sql_max (aggs.map AggRow.total_fees_paid)).getD 0,
    aggs.map fun a => ⟨a.token_type, a.total_token_delta, a.per_dollar_value⟩⟩

/-- The response body of `get_report`: the sorted `checkouts` array and the
`totals` object (`src/api/reporting.py` lines 136-138, 151-154). -/
structure Report where
  reports : List ReportRow
  totals : Totals
deriving DecidableEq, Repr

/-- The endpoint `get_report` (`src/api/reporting.py` lines 30-154): `final_data` and
`totals_data` are both computed over the same `checkouts_cte`. -/
def get_report (s : Store) (manager_id market_id : Nat)
    (market_date : Option Int) (o : SortOption) (d : SortDirection) :
    Report :=
  ⟨order_by o d (final_rows (checkouts_cte s manager_id market_id market_date)),
    totals_data (aggregated_totals
      (checkouts_cte s manager_id market_id market_date))⟩

/-! ## Basic lemmas about the grouping and sorting machinery -/

theorem mem_firstKeys_foldl {α : Type} [DecidableEq α] (l : List α) :
    ∀ (acc : List α) (x : α),
      (x ∈ l.foldl (fun acc x => if x ∈ acc then acc else acc ++ [x]) acc
        ↔ x ∈ acc ∨ x ∈ l) := by
  induction l with
  | nil => intro acc x; simp
  | cons y l ih =>
    intro acc x
    rw [List.foldl_cons, ih]
    by_cases hy : y ∈ acc
    · simp only [if_pos hy, List.mem_cons]
      constructor
      · rintro (h | h)
        · exact Or.inl h
        · exact Or.inr (Or.inr h)
      · rintro (h | rfl | h)
        · exact Or.inl h
        · exact Or.inl hy
        · exact Or.inr h
    · simp only [if_neg hy, List.mem_append, List.mem_singleton, List.mem_cons]
      tauto

theorem mem_firstKeys {α : Type} [DecidableEq α] {l : List α} {x : α} :
    x ∈ firstKeys l ↔ x ∈ l := by
  rw [firstKeys, mem_firstKeys_foldl]
  simp

theorem nodup_firstKeys_foldl {α : Type} [DecidableEq α] (l : List α) :
    ∀ acc : List α, acc.Nodup →
      (l.foldl (fun acc x => if x ∈ acc then acc else acc ++ [x]) acc).Nodup := by
  induction l with
  | nil => intro acc h; simpa using h
  | cons y l ih =>
    intro acc h
    rw [List.foldl_cons]
    refine ih _ ?_
    by_cases hy : y ∈ acc
    · simpa [if_pos hy] using h
    · rw [if_neg hy]
      simpa [List.nodup_append] using ⟨h, hy⟩

theorem nodup_firstKeys {α : Type} [DecidableEq α] (l : List α) :
    (firstKeys l).Nodup :=
  nodup_firstKeys_foldl l [] List.nodup_nil

theorem nodup_filter_beq {α : Type} [DecidableEq α] {l : List α}
    (h : l.Nodup) (K : α) :
    l.filter (fun x => x == K) = if K ∈ l then [K] else [] := by
  induction l with
  | nil => simp
  | cons x xs ih =>
    rw [List.nodup_cons] at h
    by_cases hx : x = K
    · subst hx
      have hnot : x ∉ xs := h.1
      rw [List.filter_cons_of_pos (by simp), ih h.2, if_neg hnot,
        if_pos (List.mem_cons_self x xs)]
    · rw [List.filter_cons_of_neg (by simpa using hx), ih h.2]
      by_cases hK : K ∈ xs
      · rw [if_pos hK, if_pos (List.mem_cons_of_mem _ hK)]
      · have hKc : K ∉ x :: xs := by
          simp only [List.mem_cons]
          rintro (rfl | hK2)
          · exact hx rfl
          · exact hK hK2
        rw [if_neg hK, if_neg hKc]

theorem firstKeys_foldl_const {α : Type} [DecidableEq α] (k : α) :
    ∀ xs : List α, (∀ x ∈ xs, x = k) →
      xs.foldl (fun acc y => if y ∈ acc then acc else acc ++ [y]) [k] = [k] := by
  intro xs
  induction xs with
  | nil => intro _; rfl
  | cons z zs ih =>
    intro h
    obtain rfl : z = k := h z (List.mem_cons_self z zs)
    rw [List.foldl_cons, if_pos (List.mem_singleton_self z)]
    exact ih fun x hx => h x (List.mem_cons_of_mem _ hx)

theorem firstKeys_all_eq {α : Type} [DecidableEq α] {l : List α} {k : α}
    (hne : l ≠ []) (hall : ∀ x ∈ l, x = k) : firstKeys l = [k] := by
  cases l with
  | nil => exact absurd rfl hne
  | cons x xs =>
    obtain rfl : x = k := hall x (List.mem_cons_self x xs)
    rw [firstKeys, List.foldl_cons, if_neg (List.not_mem_nil x),
      List.nil_append]
    exact firstKeys_foldl_const x xs fun y hy =>
      hall y (List.mem_cons_of_mem _ hy)

theorem skey_le_refl (x : SKey) : SKey.le x x = true := by
  cases x <;> simp [SKey.le]

theorem skey_le_total (x y : SKey) :
    SKey.le x y = true ∨ SKey.le y x = true := by
  cases x <;> cases y <;> simp [SKey.le] <;> exact le_total _ _

theorem skey_le_trans {x y z : SKey} (h1 : SKey.le x y = true)
    (h2 : SKey.le y z = true) : SKey.le x z = true := by
  cases x <;> cases y <;> cases z <;>
    simp only [SKey.le, decide_eq_true_eq] at h1 h2 ⊢ <;>
    first
      | rfl
      | trivial
      | exact h1.trans h2

theorem row_le_refl (o : SortOption) (d : SortDirection) (a : ReportRow) :
    row_le o d a a = true := by
  cases d <;> simp [row_le, skey_le_refl]

theorem row_le_total (o : SortOption) (d : SortDirection) (a b : ReportRow) :
    row_le o d a b = true ∨ row_le o d b a = true := by
  cases d <;> simp only [row_le] <;> exact skey_le_total _ _

theorem row_le_trans (o : SortOption) (d : SortDirection) {a b c : ReportRow}
    (h1 : row_le o d a b = true) (h2 : row_le o d b c = true) :
    row_le o d a c = true := by
  cases d <;> simp only [row_le] at h1 h2 ⊢
  · exact skey_le_trans h1 h2
  · exact skey_le_trans h2 h1

theorem row_le_of_eq_key {o : SortOption} {d : SortDirection}
    {a b : ReportRow} (h : sort_key o a = sort_key o b) :
    row_le o d a b = true := by
  cases d <;> simp only [row_le, h, skey_le_refl]

/-- Sorting: the output of `order_by` is ordered by the requested key and
direction. -/
theorem sorted_order_by (o : SortOption) (d : SortDirection)
    (rows : List ReportRow) :
    (order_by o d rows).Sorted (fun a b => row_le o d a b = true) := by
  haveI : IsTotal ReportRow (fun a b => row_le o d a b = true) :=
    ⟨row_le_total o d⟩
  haveI : IsTrans ReportRow (fun a b => row_le o d a b = true) :=
    ⟨fun _ _ _ => row_le_trans o d⟩
  exact List.sorted_insertionSort _ _

/-- Permutation: the output of `order_by` has exactly the input rows. -/
theorem perm_order_by (o : SortOption) (d : SortDirection)
    (rows : List ReportRow) : List.Perm (order_by o d rows) rows :=
  List.perm_insertionSort _ _

/-- Stability: under `order_by`, any selection of rows that pairwise compare
(in particular: rows sharing one sort-key value) comes out in its original
order. -/
theorem filter_order_by (o : SortOption) (d : SortDirection)
    (rows : List ReportRow) (p : ReportRow → Bool)
    (hp : ∀ x y, p x = true → p y = true → row_le o d x y = true) :
    (order_by o d rows).filter p = rows.filter p := by
  have h1 : (rows.filter p).Pairwise (fun a b => row_le o d a b = true) :=
    List.pairwise_of_forall_mem_list fun x hx y hy =>
      hp x y (List.of_mem_filter hx) (List.of_mem_filter hy)
  have h3 : List.Sublist (rows.filter p) (order_by o d rows) :=
    List.sublist_insertionSort h1 (List.filter_sublist rows)
  have h4 : List.Sublist (rows.filter p) ((order_by o d rows).filter p) := by
    have := h3.filter p
    rwa [List.filter_filter, (by funext x; cases p x <;> rfl :
      (fun a => (p a && p a : Bool)) = p)] at this
  have h5 : ((order_by o d rows).filter p).length = (rows.filter p).length :=
    ((perm_order_by o d rows).filter p).length_eq
  exact (h4.eq_of_length h5.symm).symm

/-- Concrete store for the sorting example: one market (manager 1) with one
token type, three vendors, three checkouts inserted with gross values
50, 200, 75. -/
def c8_store : Store := {
  markets := [⟨1, 1⟩],
  vendors := [⟨1, "A", "PRODUCER"⟩, ⟨2, "B", "PRODUCER"⟩, ⟨3, "C", "PRODUCER"⟩],
  market_vendors := [⟨1, 1, 1⟩, ⟨2, 2, 1⟩, ⟨3, 3, 1⟩],
  market_tokens := [⟨1, 1, "EBT", 1⟩],
  market_fees := [],
  vendor_checkouts := [⟨1, 1, 0, 50, 1⟩, ⟨2, 2, 0, 200, 2⟩, ⟨3, 3, 0, 75, 3⟩],
  token_deltas := [],
  vendor_checkout_tokens := [],
  next_checkout_id := 4,
  next_token_delta_id := 1 }

end Farmers

/-- C1: the fee computation decomposes each rule into the
(flat, percent) pair given by the spec's table: FLAT_FEE ↦ (rate,
rate_2 or 0); PERCENT_GROSS ↦ (rate_2 or 0, rate); FLAT_PERCENT_COMBO ↦
(rate, rate_2 or 0); MAX_OF_EITHER ↦ (rate, rate_2 or 0); GOV_FEE ↦
(rate, 0); any unrecognized fee type ↦ (0, 0). -/
theorem fee_components_match_spec_table (rate : Rat) (rate_2 : Option Rat) :
    Farmers.fee_components "FLAT_FEE" rate rate_2 = (rate, rate_2.getD 0)
    ∧ Farmers.fee_components "PERCENT_GROSS" rate rate_2 = (rate_2.getD 0, rate)
    ∧ Farmers.fee_components "FLAT_PERCENT_COMBO" rate rate_2 = (rate, rate_2.getD 0)
    ∧ Farmers.fee_components "MAX_OF_EITHER" rate rate_2 = (rate, rate_2.getD 0)
    ∧ Farmers.fee_components "GOV_FEE" rate rate_2 = (rate, 0)
    ∧ ∀ ft : String, ft ≠ "FLAT_FEE" → ft ≠ "PERCENT_GROSS" →
        ft ≠ "FLAT_PERCENT_COMBO" → ft ≠ "MAX_OF_EITHER" → ft ≠ "GOV_FEE" →
        Farmers.fee_components ft rate rate_2 = (0, 0) := by
  refine ⟨?_, ?_, ?_, ?_, ?_, ?_⟩
  · simp [Farmers.fee_components, Farmers.fee_flat, Farmers.fee_percent]
  · simp [Farmers.fee_components, Farmers.fee_flat, Farmers.fee_percent]
  · simp [Farmers.fee_components, Farmers.fee_flat, Farmers.fee_percent]
  · simp [Farmers.fee_components, Farmers.fee_flat, Farmers.fee_percent]
  · simp [Farmers.fee_components, Farmers.fee_flat, Farmers.fee_percent]
  · intro ft h1 h2 h3 h4 h5
    simp [Farmers.fee_components, Farmers.fee_flat, Farmers.fee_percent,
      h1, h2, h3, h4, h5]

/-- Witness for C1: the theorem applied at concrete inputs, including an
unrecognized fee type. -/
theorem fee_components_match_spec_table_witness :
    Farmers.fee_components "FLAT_FEE" 3 (some 5) = (3, 5)
    ∧ Farmers.fee_components "GOV_FEE" 3 (some 5) = (3, 0)
    ∧ Farmers.fee_components "BOGUS" 3 (some 5) = (0, 0) :=
  ⟨(fee_components_match_spec_table 3 (some 5)).1,
   (fee_components_match_spec_table 3 (some 5)).2.2.2.2.1,
   (fee_components_match_spec_table 3 (some 5)).2.2.2.2.2 "BOGUS"
     (by decide) (by decide) (by decide) (by decide) (by decide)⟩

/-- C8: for every report query the sort key is one of {market date,
vendor business name, reported gross, fees paid}; the report's rows are
ordered by the requested key and direction and are exactly the grouped rows
(a permutation); rows with equal sort keys keep their original insertion
order (stable, no secondary key); and sorting by gross descending over
gross values [50, 200, 75] yields [200, 75, 50]. -/
theorem report_sort_key_direction_stable :
    (∀ o : Farmers.SortOption, o = .MarketDate ∨ o = .VendorName
      ∨ o = .Gross ∨ o = .FeesPaid)
    ∧ (∀ (s : Farmers.Store) (mgr mId : Nat) (mD : Option Int)
        (o : Farmers.SortOption) (d : Farmers.SortDirection),
        (Farmers.get_report s mgr mId mD o d).reports.Sorted
          (fun a b => Farmers.row_le o d a b = true))
    ∧ (∀ (s : Farmers.Store) (mgr mId : Nat) (mD : Option Int)
        (o : Farmers.SortOption) (d : Farmers.SortDirection),
        List.Perm (Farmers.get_report s mgr mId mD o d).reports
          (Farmers.final_rows (Farmers.checkouts_cte s mgr mId mD)))
    ∧ (∀ (s : Farmers.Store) (mgr mId : Nat) (mD : Option Int)
        (o : Farmers.SortOption) (d : Farmers.SortDirection) (v : Farmers.SKey),
        (Farmers.get_report s mgr mId mD o d).reports.filter
            (fun row => Farmers.sort_key o row == v)
          = (Farmers.final_rows (Farmers.checkouts_cte s mgr mId mD)).filter
              (fun row => Farmers.sort_key o row == v))
    ∧ (Farmers.get_report Farmers.c8_store 1 0 none .Gross .Descending).reports.map
        Farmers.ReportRow.gross = [200, 75, 50] := by
  refine ⟨?_, ?_, ?_, ?_, ?_⟩
  · intro o
    cases o
    · exact Or.inl rfl
    · exact Or.inr (Or.inl rfl)
    · exact Or.inr (Or.inr (Or.inl rfl))
    · exact Or.inr (Or.inr (Or.inr rfl))
  · intro s mgr mId mD o d
    exact Farmers.sorted_order_by o d _
  · intro s mgr mId mD o d
    exact Farmers.perm_order_by o d _
  · intro s mgr mId mD o d v
    refine Farmers.filter_order_by o d _ _ ?_
    intro x y hx hy
    have hx' : Farmers.sort_key o x = v := by simpa using hx
    have hy' : Farmers.sort_key o y = v := by simpa using hy
    exact Farmers.row_le_of_eq_key (hx'.trans hy'.symm)
  · decide

namespace Farmers

/-- Store for the cross-market token submission: manager 1 runs markets 1
and 2; vendor "Alpha" sells at market 1 (market_vendor 1); token 10 belongs
to market 2.  A checkout for market_vendor 1 referencing token 10 crosses
markets. -/
def c2_store : Store := {
  markets := [⟨1, 1⟩, ⟨2, 1⟩],
  vendors := [⟨1, "Alpha", "PRODUCER"⟩],
  market_vendors := [⟨1, 1, 1⟩],
  market_tokens := [⟨10, 2, "EBT", 1⟩],
  market_fees := [],
  vendor_checkouts := [],
  token_deltas := [],
  vendor_checkout_tokens := [],
  next_checkout_id := 1,
  next_token_delta_id := 1 }

/-- The cross-market submission: vendor of market 1 pays with token 10 of
market 2. -/
def c2_submit : CheckoutSubmit := ⟨1, 5, 100, 10, some [⟨10, 3⟩]⟩

/-- Store for the negative-gross submission: one market, one vendor. -/
def c6_store : Store := {
  markets := [⟨1, 1⟩],
  vendors := [⟨1, "Alpha", "PRODUCER"⟩],
  market_vendors := [⟨1, 1, 1⟩],
  market_tokens := [],
  market_fees := [],
  vendor_checkouts := [],
  token_deltas := [],
  vendor_checkout_tokens := [],
  next_checkout_id := 1,
  next_token_delta_id := 1 }

/-- A submission reporting a negative gross of -5. -/
def c6_submit : CheckoutSubmit := ⟨1, 5, -5, 2, none⟩

end Farmers

/-- C2 (falsified by the code): a checkout whose token belongs to a
different market is *not* rejected.  `submit_checkout` performs no
market-membership validation and the token's plain foreign key is
satisfied, so the submission commits with status 200 and the
`vendor_checkouts` row, the cross-market `token_deltas` row and the link
row all persist — no `ReferentialError` exists anywhere in the code. -/
theorem submit_checkout_commits_cross_market_token :
    (Farmers.submit_checkout Farmers.c2_store Farmers.c2_submit).1 = 200
    ∧ ((Farmers.submit_checkout Farmers.c2_store Farmers.c2_submit).2).vendor_checkouts
        = [⟨1, 1, 5, 100, 10⟩]
    ∧ ((Farmers.submit_checkout Farmers.c2_store Farmers.c2_submit).2).token_deltas
        = [⟨1, 10, "VENDOR", 3⟩]
    ∧ ((Farmers.submit_checkout Farmers.c2_store Farmers.c2_submit).2).vendor_checkout_tokens
        = [⟨1, 1⟩]
    ∧ (Farmers.c2_store.market_tokens.filter
          (fun mt => mt.market_id == 1)) = [] := by
  refine ⟨?_, ?_, ?_, ?_, ?_⟩ <;> decide

/-- C6 (falsified by the code): a submission with negative
`reported_gross` is accepted, not rejected.  The `CheckoutSubmit` model
carries no range validator and `submit_checkout` performs no check, so the
submission returns 200 and commits a `vendor_checkouts` row with
`gross = -5`. -/
theorem submit_checkout_accepts_negative_gross :
    (Farmers.submit_checkout Farmers.c6_store Farmers.c6_submit).1 = 200
    ∧ ((Farmers.submit_checkout Farmers.c6_store Farmers.c6_submit).2).vendor_checkouts.map
        Farmers.VendorCheckout.gross = [-5] := by
  exact ⟨by decide, by decide⟩

/-- C3 (falsified by the code): the write path stores a token's signed
quantity in the `token_deltas` column `count`, but the report query sums
`td.delta` — a column that does not exist in the table — so the
submit-then-report round trip cannot return the submitted count: one of the
two paths fails against any single schema. -/
theorem report_reads_missing_token_delta_column :
    Farmers.submit_count_column ∈ Farmers.token_deltas_columns
    ∧ Farmers.report_count_column ∉ Farmers.token_deltas_columns
    ∧ Farmers.submit_count_column ≠ Farmers.report_count_column := by
  refine ⟨?_, ?_, ?_⟩ <;> decide

namespace Farmers

/-- Store with one committed settlement (market_vendor 1, date 0), for the
duplicate-settlement scenario. -/
def c7_store : Store := {
  markets := [⟨1, 1⟩],
  vendors := [⟨1, "Alpha", "PRODUCER"⟩],
  market_vendors := [⟨1, 1, 1⟩],
  market_tokens := [],
  market_fees := [],
  vendor_checkouts := [⟨1, 1, 0, 40, 4⟩],
  token_deltas := [],
  vendor_checkout_tokens := [],
  next_checkout_id := 2,
  next_token_delta_id := 1 }

/-- A second settlement for the same (vendor, date) pair as the one already
in `c7_store`. -/
def c7_dup_submit : CheckoutSubmit := ⟨1, 0, 50, 5, none⟩

/-- A submission for a nonexistent market vendor (a referential failure). -/
def c7_ref_submit : CheckoutSubmit := ⟨99, 0, 50, 5, none⟩

end Farmers

/-- C7 counterexample: the status surfaced for a duplicate-settlement
uniqueness violation is 500 — identical to the status surfaced for a
referential failure (and to the generic store-error status of the
endpoint's `except DBAPIError` handler), and not the 409 conflict status
`handle_error` defines; the statuses are not distinct. -/
theorem duplicate_settlement_status_not_distinct :
    (Farmers.submit_checkout Farmers.c7_store Farmers.c7_dup_submit).1 = 500
    ∧ (Farmers.submit_checkout Farmers.c7_store Farmers.c7_ref_submit).1 = 500
    ∧ (Farmers.submit_checkout Farmers.c7_store Farmers.c7_dup_submit).1
        = (Farmers.submit_checkout Farmers.c7_store Farmers.c7_ref_submit).1
    ∧ (Farmers.submit_checkout Farmers.c7_store Farmers.c7_dup_submit).1 ≠ 409 := by
  refine ⟨?_, ?_, ?_, ?_⟩ <;> decide

/-- C7 amended: a duplicate settlement aborts the whole transaction (the
store is unchanged) and is surfaced to the caller — but with the generic
status 500 that `submit_checkout`'s blanket `except DBAPIError` handler
uses for every database error, not a distinct conflict status; the
conflict mapping (409, distinct from the 404 referential mapping) exists in
`handle_error`, which `submit_checkout` never calls. -/
theorem duplicate_settlement_aborts_with_generic_status
    (s : Farmers.Store) (c : Farmers.CheckoutSubmit)
    (hdup : s.vendor_checkouts.any (fun vc =>
        vc.market_vendor == c.market_vendor_id
          && vc.market_date == c.market_date) = true) :
    Farmers.submit_checkout s c = (500, s)
    ∧ Farmers.handle_error .unique_violation [.UNIQUE_VIOLATION] = some 409
    ∧ Farmers.handle_error .foreign_key_violation [.FOREIGN_KEY_VIOLATION]
        = some 404 := by
  refine ⟨?_, rfl, rfl⟩
  unfold Farmers.submit_checkout Farmers.first_violation
  by_cases hfk : ¬ s.market_vendors.any (fun mv => mv.id == c.market_vendor_id)
  · rw [if_pos hfk]
  · rw [if_neg hfk, if_pos hdup]

/-- Witness for the amended C7 theorem: the duplicate submission against
`c7_store` satisfies the hypothesis, aborts with 500 and leaves the store
unchanged. -/
theorem duplicate_settlement_aborts_with_generic_status_witness :
    (Farmers.c7_store.vendor_checkouts.any (fun vc =>
        vc.market_vendor == Farmers.c7_dup_submit.market_vendor_id
          && vc.market_date == Farmers.c7_dup_submit.market_date) = true)
    ∧ (Farmers.submit_checkout Farmers.c7_store Farmers.c7_dup_submit
        = (500, Farmers.c7_store)
      ∧ Farmers.handle_error .unique_violation [.UNIQUE_VIOLATION] = some 409
      ∧ Farmers.handle_error .foreign_key_violation [.FOREIGN_KEY_VIOLATION]
          = some 404) :=
  ⟨by decide,
   duplicate_settlement_aborts_with_generic_status Farmers.c7_store
     Farmers.c7_dup_submit (by decide)⟩

namespace Farmers

/-- Sum splitting over a disjunctive filter: when no row satisfies both
predicates, summing over the union splits into the two sums. -/
theorem sum_filter_or (tds : List TokenDelta) (p q : TokenDelta → Bool)
    (hdisj : ∀ td, ¬(p td = true ∧ q td = true)) :
    ((tds.filter fun td => p td || q td).map TokenDelta.count).sum
      = ((tds.filter p).map TokenDelta.count).sum
        + ((tds.filter q).map TokenDelta.count).sum := by
  induction tds with
  | nil => simp
  | cons td rest ih =>
    by_cases hp : p td = true
    · have hq : q td = false := by
        cases hq2 : q td
        · rfl
        · exact absurd ⟨hp, hq2⟩ (hdisj td)
      simp only [List.filter_cons, hp, hq, Bool.true_or, if_pos, if_neg,
        Bool.false_eq_true, not_false_iff, List.map_cons, List.sum_cons, ih]
      ring
    · have hp' : p td = false := by
        cases hp2 : p td
        · rfl
        · exact absurd hp2 hp
      cases hq : q td
      · simp only [List.filter_cons, hp', hq, Bool.or_self, if_neg,
          Bool.false_eq_true, not_false_iff, ih]
      · simp only [List.filter_cons, hp', hq, Bool.false_or, if_pos,
          if_neg, Bool.false_eq_true, not_false_iff, List.map_cons,
          List.sum_cons, ih]
        ring

/-- The join-shaped double sum of `token_delta_sum` collapses to a single
sum over the distinct linked deltas, provided no delta is linked twice. -/
theorem links_sum_swap (tds : List TokenDelta) (mt_id : Nat) :
    ∀ links : List VendorCheckoutToken,
      (links.map VendorCheckoutToken.token_delta).Nodup →
      ((links.map fun l =>
          ((tds.filter fun td =>
              td.id == l.token_delta && td.market_token == mt_id).map
            TokenDelta.count).sum).sum)
        = ((tds.filter fun td => td.market_token == mt_id
            && links.any fun l => l.token_delta == td.id).map
          TokenDelta.count).sum := by
  intro links
  induction links with
  | nil => simp
  | cons l ls ih =>
    intro hnodup
    rw [List.map_cons, List.nodup_cons] at hnodup
    obtain ⟨hl, hls⟩ := hnodup
    rw [List.map_cons, List.sum_cons, ih hls]
    have hsplit :
        (fun td : TokenDelta => td.market_token == mt_id
          && (l :: ls).any fun l' => l'.token_delta == td.id)
        = fun td : TokenDelta => (td.market_token == mt_id && (l.token_delta == td.id))
          || (td.market_token == mt_id && ls.any fun l' => l'.token_delta == td.id) := by
      funext td
      rw [List.any_cons]
      cases td.market_token == mt_id <;>
        cases l.token_delta == td.id <;> simp
    rw [hsplit, sum_filter_or]
    · have hfirst :
          tds.filter (fun td => td.market_token == mt_id && (l.token_delta == td.id))
            = tds.filter (fun td => td.id == l.token_delta && td.market_token == mt_id) := by
        refine List.filter_congr ?_
        intro td _
        rw [Bool.and_comm, Bool.beq_comm]
      rw [hfirst]
    · intro td
      rintro ⟨h1, h2⟩
      rw [Bool.and_eq_true] at h1 h2
      obtain ⟨-, h1b⟩ := h1
      obtain ⟨-, h2b⟩ := h2
      rw [List.any_eq_true] at h2b
      obtain ⟨l', hl', hl'b⟩ := h2b
      apply hl
      rw [List.mem_map]
      refine ⟨l', hl', ?_⟩
      have e1 : l.token_delta = td.id := by simpa using h1b
      have e2 : l'.token_delta = td.id := by simpa using hl'b
      rw [e2, e1]

/-- The claim's description of a checkout's net token delta, written from
the spec's words for comparison with the query: the summed `count` of the
token-delta rows of the given token type that are linked to the checkout
(each delta once), `0` when none are linked. -/
def spec_net_delta (s : Store) (vc_id mt_id : Nat) : Int :=
  ((s.token_deltas.filter fun td => td.market_token == mt_id
      && s.vendor_checkout_tokens.any fun l =>
        l.vendor_checkout == vc_id && l.token_delta == td.id).map
    TokenDelta.count).sum

/-- The query's per-(checkout, token) aggregate agrees with the spec-side
net delta whenever no delta is linked twice to the checkout. -/
theorem token_delta_sum_eq_spec (s : Store) (vc_id mt_id : Nat)
    (hnodup : ((s.vendor_checkout_tokens.filter fun l =>
        l.vendor_checkout == vc_id).map
      VendorCheckoutToken.token_delta).Nodup) :
    token_delta_sum s vc_id mt_id = spec_net_delta s vc_id mt_id := by
  rw [token_delta_sum, links_sum_swap s.token_deltas mt_id _ hnodup,
    spec_net_delta]
  refine congrArg (fun l => (List.map TokenDelta.count l).sum) ?_
  refine List.filter_congr ?_
  intro td _
  rw [List.any_filter]

/-- Every (checkout, configured market token) pair contributes its row to
`market_token_deltas`. -/
theorem mtd_row_mem (s : Store) {vc : VendorCheckout} {mv : MarketVendor}
    {mt : MarketToken} (hvc : vc ∈ s.vendor_checkouts)
    (hmv : mv ∈ s.market_vendors) (hvm : vc.market_vendor = mv.id)
    (hmt : mt ∈ s.market_tokens) (hmm : mt.market_id = mv.market_id) :
    MTDRow.mk vc.id mt.id mt.token_type mt.per_dollar_value
      (token_delta_sum s vc.id mt.id) ∈ market_token_deltas s := by
  unfold market_token_deltas
  rw [List.mem_flatMap]
  refine ⟨vc, hvc, ?_⟩
  rw [List.mem_flatMap]
  refine ⟨mv, List.mem_filter.mpr ⟨hmv, by simp [hvm]⟩, ?_⟩
  rw [List.mem_map]
  exact ⟨mt, List.mem_filter.mpr ⟨hmt, by simp [hmm]⟩, rfl⟩

end Farmers

/-- C5: for every checkout of a vendor and every market token configured
for that vendor's market, the report's `market_token_deltas` CTE contains
the row pairing that checkout with that token type and per-dollar value,
whose delta is the net sum of the counts of all deltas of that token type
linked to the checkout — and `0` when no delta is linked — so every
configured token type appears even with zero activity.  (Stated against the
spec-side `spec_net_delta`; the hypothesis rules out one delta being linked
twice, in which SQL's join would double-count.) -/
theorem report_rows_carry_net_delta_per_token (s : Farmers.Store)
    (vc : Farmers.VendorCheckout) (mv : Farmers.MarketVendor)
    (mt : Farmers.MarketToken)
    (hvc : vc ∈ s.vendor_checkouts) (hmv : mv ∈ s.market_vendors)
    (hvm : vc.market_vendor = mv.id) (hmt : mt ∈ s.market_tokens)
    (hmm : mt.market_id = mv.market_id)
    (hnodup : ((s.vendor_checkout_tokens.filter fun l =>
        l.vendor_checkout == vc.id).map
      Farmers.VendorCheckoutToken.token_delta).Nodup) :
    Farmers.MTDRow.mk vc.id mt.id mt.token_type mt.per_dollar_value
        (Farmers.spec_net_delta s vc.id mt.id) ∈ Farmers.market_token_deltas s
    ∧ ((s.vendor_checkout_tokens.filter fun l =>
          l.vendor_checkout == vc.id) = [] →
        Farmers.spec_net_delta s vc.id mt.id = 0) := by
  constructor
  · rw [← Farmers.token_delta_sum_eq_spec s vc.id mt.id hnodup]
    exact Farmers.mtd_row_mem s hvc hmv hvm hmt hmm
  · intro hempty
    rw [List.filter_eq_nil_iff] at hempty
    rw [Farmers.spec_net_delta]
    have : (s.token_deltas.filter fun td => td.market_token == mt.id
        && s.vendor_checkout_tokens.any fun l =>
          l.vendor_checkout == vc.id && l.token_delta == td.id) = [] := by
      rw [List.filter_eq_nil_iff]
      intro td _
      rw [Bool.and_eq_true, List.any_eq_true]
      rintro ⟨-, l, hl, hlb⟩
      rw [Bool.and_eq_true] at hlb
      exact hempty l hl hlb.1
    rw [this]
    rfl

namespace Farmers

/-- Concrete store for the net-delta witness: one checkout with a single
linked delta of 4 EBT tokens. -/
def c5_store : Store := {
  markets := [⟨1, 1⟩],
  vendors := [⟨1, "Alpha", "PRODUCER"⟩],
  market_vendors := [⟨1, 1, 1⟩],
  market_tokens := [⟨1, 1, "EBT", 1⟩],
  market_fees := [],
  vendor_checkouts := [⟨1, 1, 0, 100, 10⟩],
  token_deltas := [⟨1, 1, "VENDOR", 4⟩],
  vendor_checkout_tokens := [⟨1, 1⟩],
  next_checkout_id := 2,
  next_token_delta_id := 2 }

end Farmers

/-- Witness for C5: in `c5_store` the checkout's row for the EBT token with
its spec-side net delta is a `market_token_deltas` row. -/
theorem report_rows_carry_net_delta_per_token_witness :
    Farmers.MTDRow.mk 1 1 "EBT" 1 (Farmers.spec_net_delta Farmers.c5_store 1 1)
        ∈ Farmers.market_token_deltas Farmers.c5_store
    ∧ ((Farmers.c5_store.vendor_checkout_tokens.filter fun l =>
          l.vendor_checkout == 1) = [] →
        Farmers.spec_net_delta Farmers.c5_store 1 1 = 0) :=
  report_rows_carry_net_delta_per_token Farmers.c5_store
    ⟨1, 1, 0, 100, 10⟩ ⟨1, 1, 1⟩ ⟨1, 1, "EBT", 1⟩
    (by decide) (by decide) rfl (by decide) rfl (by decide)

namespace Farmers

/-- Every `market_token_deltas` row belongs to some stored checkout. -/
theorem mtd_vc_ids (s : Store) :
    ∀ r ∈ market_token_deltas s,
      r.vendor_checkout_id ∈ s.vendor_checkouts.map VendorCheckout.id := by
  intro r hr
  rw [market_token_deltas, List.mem_flatMap] at hr
  obtain ⟨vc', hvc', hr⟩ := hr
  rw [List.mem_flatMap] at hr
  obtain ⟨mv, _, hr⟩ := hr
  rw [List.mem_map] at hr
  obtain ⟨mt, _, rfl⟩ := hr
  exact List.mem_map.mpr ⟨vc', hvc', rfl⟩

/-- Adding a checkout whose market has no configured token types leaves
`market_token_deltas` unchanged: its inner join against `market_tokens`
produces no rows for it. -/
theorem market_token_deltas_append_no_tokens (s : Store) (vc : VendorCheckout)
    (h2 : ∀ mv ∈ s.market_vendors, vc.market_vendor = mv.id →
      s.market_tokens.filter (fun mt => mt.market_id == mv.market_id) = []) :
    market_token_deltas {s with vendor_checkouts := s.vendor_checkouts ++ [vc]}
      = market_token_deltas s := by
  have hblock : (s.market_vendors.filter fun mv => vc.market_vendor == mv.id).flatMap
      (fun mv =>
        (s.market_tokens.filter fun mt => mt.market_id == mv.market_id).map
          fun mt =>
            MTDRow.mk vc.id mt.id mt.token_type mt.per_dollar_value
              (token_delta_sum s vc.id mt.id)) = [] := by
    rw [List.flatMap_eq_nil_iff]
    intro mv hmv
    rw [List.mem_filter] at hmv
    rw [h2 mv hmv.1 (by simpa using hmv.2)]
    rfl
  show (s.vendor_checkouts ++ [vc]).flatMap
      (fun vc' =>
        (s.market_vendors.filter fun mv => vc'.market_vendor == mv.id).flatMap
          fun mv =>
            (s.market_tokens.filter fun mt => mt.market_id == mv.market_id).map
              fun mt =>
                MTDRow.mk vc'.id mt.id mt.token_type mt.per_dollar_value
                  (token_delta_sum s vc'.id mt.id))
    = market_token_deltas s
  rw [List.flatMap_append, market_token_deltas]
  simp only [List.flatMap_cons, List.flatMap_nil, List.append_nil]
  rw [hblock, List.append_nil]

end Farmers

namespace Farmers

/-- Adding a checkout with a fresh id whose market configures no token
types leaves `checkouts_cte` unchanged: the inner join against
`market_token_deltas` drops the new checkout entirely. -/
theorem checkouts_cte_append_no_tokens (s : Store) (vc : VendorCheckout)
    (mgr mId : Nat) (mD : Option Int)
    (h1 : vc.id ∉ s.vendor_checkouts.map VendorCheckout.id)
    (h2 : ∀ mv ∈ s.market_vendors, vc.market_vendor = mv.id →
      s.market_tokens.filter (fun mt => mt.market_id == mv.market_id) = []) :
    checkouts_cte {s with vendor_checkouts := s.vendor_checkouts ++ [vc]}
        mgr mId mD
      = checkouts_cte s mgr mId mD := by
  have hmtd := market_token_deltas_append_no_tokens s vc h2
  have hfilter : (market_token_deltas s).filter
      (fun r => r.vendor_checkout_id == vc.id) = [] := by
    rw [List.filter_eq_nil_iff]
    intro r hr hbeq
    have hmem := mtd_vc_ids s r hr
    rw [show r.vendor_checkout_id = vc.id from by simpa using hbeq] at hmem
    exact h1 hmem
  show (s.vendor_checkouts ++ [vc]).flatMap
      (fun vc' =>
        (s.market_vendors.filter fun mv => vc'.market_vendor == mv.id).flatMap
          fun mv =>
            (s.vendors.filter fun v => mv.vendor_id == v.id).flatMap fun v =>
              ((s.markets.filter fun m =>
                  m.id == mv.market_id && m.manager_id == mgr
                    && (mId == 0 || mv.market_id == mId)
                    && (match mD with
                        | none => true
                        | some d => vc'.market_date == d))).flatMap fun _m =>
                ((market_token_deltas
                    {s with vendor_checkouts := s.vendor_checkouts ++ [vc]}).filter
                      fun r => r.vendor_checkout_id == vc'.id).map fun r =>
                  ⟨vc'.id, v.business_name, v.type, vc'.gross, vc'.fees_paid,
                    vc'.market_date, r.token_type, r.token_delta,
                    r.per_dollar_value⟩)
    = checkouts_cte s mgr mId mD
  simp only [hmtd]
  rw [List.flatMap_append, checkouts_cte]
  simp only [List.flatMap_cons, List.flatMap_nil, List.append_nil]
  rw [hfilter]
  simp

end Farmers

/-- C9: a checkout whose vendor's market configures no token types in the
market token catalog is omitted from the report entirely — adding such a
checkout (with a fresh id) to the store changes neither the report's rows
nor its totals, whatever the manager, market and date filters or the sort
are. -/
theorem report_omits_checkouts_without_token_catalog
    (s : Farmers.Store) (mgr mId : Nat) (mD : Option Int)
    (o : Farmers.SortOption) (d : Farmers.SortDirection)
    (vc : Farmers.VendorCheckout)
    (h1 : vc.id ∉ s.vendor_checkouts.map Farmers.VendorCheckout.id)
    (h2 : ∀ mv ∈ s.market_vendors, vc.market_vendor = mv.id →
      s.market_tokens.filter (fun mt => mt.market_id == mv.market_id) = []) :
    Farmers.get_report
        {s with vendor_checkouts := s.vendor_checkouts ++ [vc]} mgr mId mD o d
      = Farmers.get_report s mgr mId mD o d := by
  rw [Farmers.get_report, Farmers.get_report,
    Farmers.checkouts_cte_append_no_tokens s vc mgr mId mD h1 h2]

namespace Farmers

/-- Concrete store for the no-catalog witness: manager 1's market has no
token types; one checkout is already stored. -/
def c9_store : Store := {
  markets := [⟨1, 1⟩],
  vendors := [⟨1, "Alpha", "PRODUCER"⟩],
  market_vendors := [⟨1, 1, 1⟩],
  market_tokens := [],
  market_fees := [],
  vendor_checkouts := [⟨1, 1, 0, 80, 8⟩],
  token_deltas := [],
  vendor_checkout_tokens := [],
  next_checkout_id := 2,
  next_token_delta_id := 1 }

/-- The checkout added in the no-catalog witness. -/
def c9_checkout : VendorCheckout := ⟨2, 1, 0, 60, 6⟩

end Farmers

/-- Witness for C9: in `c9_store` (no token catalog), adding checkout
`c9_checkout` leaves the report unchanged. -/
theorem report_omits_checkouts_without_token_catalog_witness :
    (Farmers.c9_checkout.id
        ∉ Farmers.c9_store.vendor_checkouts.map Farmers.VendorCheckout.id)
    ∧ (∀ mv ∈ Farmers.c9_store.market_vendors,
        Farmers.c9_checkout.market_vendor = mv.id →
          Farmers.c9_store.market_tokens.filter
            (fun mt => mt.market_id == mv.market_id) = [])
    ∧ Farmers.get_report
        {Farmers.c9_store with vendor_checkouts :=
          Farmers.c9_store.vendor_checkouts ++ [Farmers.c9_checkout]}
        1 0 none .MarketDate .Descending
      = Farmers.get_report Farmers.c9_store 1 0 none .MarketDate .Descending :=
  ⟨by decide, by decide,
   report_omits_checkouts_without_token_catalog Farmers.c9_store 1 0 none
     .MarketDate .Descending Farmers.c9_checkout (by decide) (by decide)⟩

namespace Farmers

/-- Filtering `final_rows` by a grouping key yields at most one row: the
merged row carrying the concatenated token entries of every `checkouts_cte`
row with that key. -/
theorem filter_final_rows (rows : List CheckoutRow) (K : FinalKey) :
    (final_rows rows).filter (fun row => report_row_key row == K)
      = if (rows.map final_key).any (fun k => k == K) then
          [⟨K.business_name, K.vendor_type, K.gross, K.fees_paid,
            K.market_date,
            (rows.filter fun r => final_key r == K).map fun r =>
              ⟨r.token_type, r.token_delta, r.per_dollar_value⟩⟩]
        else [] := by
  rw [final_rows, List.filter_map]
  have hcomp : ((fun row => report_row_key row == K) ∘
      (fun k : FinalKey =>
        (⟨k.business_name, k.vendor_type, k.gross, k.fees_paid, k.market_date,
          (rows.filter fun r => final_key r == k).map fun r =>
            ⟨r.token_type, r.token_delta, r.per_dollar_value⟩⟩ : ReportRow)))
      = fun k : FinalKey => k == K := rfl
  rw [hcomp, nodup_filter_beq (nodup_firstKeys _) K]
  by_cases hK : K ∈ rows.map final_key
  · rw [if_pos (mem_firstKeys.mpr hK), if_pos (by
      rw [List.any_eq_true]
      obtain ⟨r, hr, hrk⟩ := List.mem_map.mp hK
      exact ⟨K, hK, by simp⟩)]
    rfl
  · rw [if_neg (fun hc => hK (mem_firstKeys.mp hc)), if_neg (by
      rw [List.any_eq_true]
      rintro ⟨k, hk, hkb⟩
      exact hK ((by simpa using hkb : k = K) ▸ hk)), List.map_nil]

/-- The sort key of a report row is a function of its grouping key. -/
theorem sort_key_eq_of_key_eq (o : SortOption) {a b : ReportRow}
    (h : report_row_key a = report_row_key b) :
    sort_key o a = sort_key o b := by
  rw [report_row_key, report_row_key, FinalKey.mk.injEq] at h
  obtain ⟨h1, h2, h3, h4, h5⟩ := h
  cases o <;> simp [sort_key, h1, h3, h4, h5]

/-- Concrete store for the merge example: two distinct checkouts of two
vendors sharing business name "Alpha", type, gross 100, fees 10 and
date 0, each with its own token delta (2 and 3 EBT). -/
def c10_store : Store := {
  markets := [⟨1, 1⟩],
  vendors := [⟨1, "Alpha", "PRODUCER"⟩, ⟨2, "Alpha", "PRODUCER"⟩],
  market_vendors := [⟨1, 1, 1⟩, ⟨2, 2, 1⟩],
  market_tokens := [⟨1, 1, "EBT", 1⟩],
  market_fees := [],
  vendor_checkouts := [⟨1, 1, 0, 100, 10⟩, ⟨2, 2, 0, 100, 10⟩],
  token_deltas := [⟨1, 1, "VENDOR", 2⟩, ⟨2, 1, "VENDOR", 3⟩],
  vendor_checkout_tokens := [⟨1, 1⟩, ⟨2, 2⟩],
  next_checkout_id := 3,
  next_token_delta_id := 3 }

end Farmers

/-- C10: checkouts agreeing on business name, vendor type, gross, fees and
market date merge into a single report row: for every query and grouping
key, the report's rows contain at most one row with that key, and that
row's token list is the concatenation, in order, of the token entries of
every `checkouts_cte` row carrying the key; in `c10_store`, two distinct
matching checkouts yield one single report row holding both token entries,
so the report has strictly fewer rows than matching checkouts. -/
theorem report_merges_equal_key_checkouts :
    (∀ (s : Farmers.Store) (mgr mId : Nat) (mD : Option Int)
        (o : Farmers.SortOption) (d : Farmers.SortDirection)
        (K : Farmers.FinalKey),
      (Farmers.get_report s mgr mId mD o d).reports.filter
          (fun row => Farmers.report_row_key row == K)
        = if ((Farmers.checkouts_cte s mgr mId mD).map
              Farmers.final_key).any (fun k => k == K) then
            [⟨K.business_name, K.vendor_type, K.gross, K.fees_paid,
              K.market_date,
              ((Farmers.checkouts_cte s mgr mId mD).filter fun r =>
                  Farmers.final_key r == K).map fun r =>
                ⟨r.token_type, r.token_delta, r.per_dollar_value⟩⟩]
          else [])
    ∧ (Farmers.get_report Farmers.c10_store 1 0 none
          .MarketDate .Descending).reports.length = 1
    ∧ Farmers.c10_store.vendor_checkouts.length = 2
    ∧ (Farmers.get_report Farmers.c10_store 1 0 none
          .MarketDate .Descending).reports.map Farmers.ReportRow.tokens
        = [[⟨"EBT", 2, 1⟩, ⟨"EBT", 3, 1⟩]] := by
  refine ⟨?_, by decide, by decide, by decide⟩
  intro s mgr mId mD o d K
  show (Farmers.order_by o d
      (Farmers.final_rows (Farmers.checkouts_cte s mgr mId mD))).filter
        (fun row => Farmers.report_row_key row == K) = _
  rw [Farmers.filter_order_by o d _ _ (fun x y hx hy =>
    Farmers.row_le_of_eq_key (Farmers.sort_key_eq_of_key_eq o
      (((by simpa using hx : Farmers.report_row_key x = K)).trans
        ((by simpa using hy : Farmers.report_row_key y = K)).symm)))]
  exact Farmers.filter_final_rows _ K

namespace Farmers

/-- Spec-side definition, from the claim's words: the sum of `fees_paid`
across all checkouts matching the manager/market/date filter (each checkout
counted once). -/
def filtered_fees_sum (s : Store) (manager_id market_id : Nat)
    (market_date : Option Int) : Rat :=
  ((s.vendor_checkouts.filter fun vc =>
      s.market_vendors.any fun mv =>
        vc.market_vendor == mv.id
          && (market_id == 0 || mv.market_id == market_id)
          && (match market_date with
              | none => true
              | some d => vc.market_date == d)
          && s.markets.any fun m =>
            m.id == mv.market_id && m.manager_id == manager_id).map
    VendorCheckout.fees_paid).sum

/-- Counterexample store: manager 1 runs market 1 (token EBT only) and
market 2 (token ATM only); checkout 1 in market 1 pays fees 10, checkout 2
in market 2 pays fees 20.  The per-token-type groups sum fees separately
(10 and 20) and `totals_data` takes their `MAX`, 20 — not the sum 30. -/
def c4_store : Store := {
  markets := [⟨1, 1⟩, ⟨2, 1⟩],
  vendors := [⟨1, "Alpha", "PRODUCER"⟩, ⟨2, "Beta", "PRODUCER"⟩],
  market_vendors := [⟨1, 1, 1⟩, ⟨2, 2, 2⟩],
  market_tokens := [⟨1, 1, "EBT", 1⟩, ⟨2, 2, "ATM", 1⟩],
  market_fees := [],
  vendor_checkouts := [⟨1, 1, 0, 100, 10⟩, ⟨2, 2, 0, 200, 20⟩],
  token_deltas := [],
  vendor_checkout_tokens := [],
  next_checkout_id := 3,
  next_token_delta_id := 1 }

/-- Concrete single-market store for the amended-C4 witness: one token
type, checkouts with fees 10 and 20, totals fees 30. -/
def c4w_store : Store := {
  markets := [⟨1, 1⟩],
  vendors := [⟨1, "Alpha", "PRODUCER"⟩, ⟨2, "Beta", "PRODUCER"⟩],
  market_vendors := [⟨1, 1, 1⟩, ⟨2, 2, 1⟩],
  market_tokens := [⟨1, 1, "EBT", 1⟩],
  market_fees := [],
  vendor_checkouts := [⟨1, 1, 0, 100, 10⟩, ⟨2, 2, 0, 200, 20⟩],
  token_deltas := [],
  vendor_checkout_tokens := [],
  next_checkout_id := 3,
  next_token_delta_id := 1 }

end Farmers

/-- C4 counterexample: in `c4_store` both checkouts match the filter and
their fees sum to 30, but the report's totals block carries `fees_paid`
20 — `totals_data` takes `COALESCE(MAX(total_fees_paid), 0)` over the
per-(token type, per-dollar value) groups instead of a sum, and the two
checkouts' markets have disjoint token catalogs, so they land in different
groups. -/
theorem report_totals_fees_not_sum :
    (Farmers.get_report Farmers.c4_store 1 0 none
        .MarketDate .Descending).totals.fees_paid = 20
    ∧ Farmers.filtered_fees_sum Farmers.c4_store 1 0 none = 30
    ∧ (Farmers.get_report Farmers.c4_store 1 0 none
          .MarketDate .Descending).totals.fees_paid
        ≠ Farmers.filtered_fees_sum Farmers.c4_store 1 0 none := by
  refine ⟨by decide, by decide, by decide⟩

/-- C4 amended: the totals block carries exactly one aggregate entry per
distinct (token type, per-dollar value) pair (not per token type in
general), and its `fees_paid` is the greatest per-group sum rather than the
sum over all filtered checkouts; when every `checkouts_cte` row falls in a
single group — e.g. one market with one token type — the two notions
coincide: `fees_paid` is the row sum of fees and the single entry carries
the summed delta. -/
theorem report_totals_grouped_max
    : (∀ (s : Farmers.Store) (mgr mId : Nat) (mD : Option Int)
        (o : Farmers.SortOption) (d : Farmers.SortDirection),
        ((Farmers.get_report s mgr mId mD o d).totals.tokens.map
          (fun t => (t.type, t.per_dollar_value))).Nodup)
    ∧ (∀ (s : Farmers.Store) (mgr mId : Nat) (mD : Option Int)
        (o : Farmers.SortOption) (d : Farmers.SortDirection) (k : String × Rat),
        Farmers.checkouts_cte s mgr mId mD ≠ [] →
        (∀ r ∈ Farmers.checkouts_cte s mgr mId mD,
          (r.token_type, r.per_dollar_value) = k) →
        (Farmers.get_report s mgr mId mD o d).totals.fees_paid
            = ((Farmers.checkouts_cte s mgr mId mD).map
              Farmers.CheckoutRow.fees_paid).sum
          ∧ (Farmers.get_report s mgr mId mD o d).totals.tokens
            = [⟨k.1, ((Farmers.checkouts_cte s mgr mId mD).map
                Farmers.CheckoutRow.token_delta).sum, k.2⟩]) := by
  constructor
  · intro s mgr mId mD o d
    show (((Farmers.aggregated_totals (Farmers.checkouts_cte s mgr mId mD)).map
        (fun a : Farmers.AggRow =>
          (⟨a.token_type, a.total_token_delta, a.per_dollar_value⟩ :
            Farmers.TokenEntry))).map
      (fun t : Farmers.TokenEntry => (t.type, t.per_dollar_value))).Nodup
    rw [List.map_map]
    show ((Farmers.aggregated_totals (Farmers.checkouts_cte s mgr mId mD)).map
      (fun a : Farmers.AggRow => (a.token_type, a.per_dollar_value))).Nodup
    rw [Farmers.aggregated_totals, List.map_map]
    show ((Farmers.firstKeys ((Farmers.checkouts_cte s mgr mId mD).map
        fun r => (r.token_type, r.per_dollar_value))).map
      (fun k : String × Rat => k)).Nodup
    rw [List.map_id']
    exact Farmers.nodup_firstKeys _
  · intro s mgr mId mD o d k hne hall
    have hkeys : (Farmers.checkouts_cte s mgr mId mD).map
        (fun r => (r.token_type, r.per_dollar_value)) ≠ [] := by
      simpa using hne
    have hallk : ∀ x ∈ (Farmers.checkouts_cte s mgr mId mD).map
        (fun r => (r.token_type, r.per_dollar_value)), x = k := by
      intro x hx
      obtain ⟨r, hr, rfl⟩ := List.mem_map.mp hx
      exact hall r hr
    have hfil : (Farmers.checkouts_cte s mgr mId mD).filter
        (fun r => (r.token_type, r.per_dollar_value) == k)
        = Farmers.checkouts_cte s mgr mId mD :=
      List.filter_eq_self.mpr fun r hr => by simpa using hall r hr
    have hagg : Farmers.aggregated_totals (Farmers.checkouts_cte s mgr mId mD)
        = [⟨k.1, k.2,
            ((Farmers.checkouts_cte s mgr mId mD).map
              Farmers.CheckoutRow.token_delta).sum,
            ((Farmers.checkouts_cte s mgr mId mD).map
              Farmers.CheckoutRow.fees_paid).sum⟩] := by
      rw [Farmers.aggregated_totals, Farmers.firstKeys_all_eq hkeys hallk,
        List.map_cons, List.map_nil, hfil]
    constructor
    · show (Farmers.totals_data (Farmers.aggregated_totals
        (Farmers.checkouts_cte s mgr mId mD))).fees_paid = _
      rw [hagg]
      rfl
    · show (Farmers.totals_data (Farmers.aggregated_totals
        (Farmers.checkouts_cte s mgr mId mD))).tokens = _
      rw [hagg]
      rfl

/-- Witness for the amended C4 theorem: in the one-market, one-token-type
store `c4w_store` the single-group hypotheses hold, and the totals'
`fees_paid` is the sum of fees over the rows. -/
theorem report_totals_grouped_max_witness :
    (Farmers.get_report Farmers.c4w_store 1 0 none
        .MarketDate .Descending).totals.fees_paid
      = ((Farmers.checkouts_cte Farmers.c4w_store 1 0 none).map
        Farmers.CheckoutRow.fees_paid).sum
    ∧ (Farmers.get_report Farmers.c4w_store 1 0 none
        .MarketDate .Descending).totals.tokens
      = [⟨"EBT", ((Farmers.checkouts_cte Farmers.c4w_store 1 0 none).map
          Farmers.CheckoutRow.token_delta).sum, 1⟩] :=
  report_totals_grouped_max.2 Farmers.c4w_store 1 0 none
    .MarketDate .Descending ("EBT", 1) (by decide) (by decide)
